import Mathlib

/-!
Verification of the `apod-wallpaper` script (`src/index.js`).

JavaScript strings are embedded as `List Char`.  Absent values
(`undefined`) are embedded as `Option.none`.  Machine `number`s that the
script uses as integers (epoch milliseconds, day counts, parsed modes)
are embedded as `ℤ`/`ℕ`; `Math.random()` results are embedded as `ℚ`
in `[0, 1)`.
-/

/-- The decimal digit character for `n < 10` (code point `48 + n`),
embedding JavaScript `Number.prototype.toString` digit rendering. -/
def digitChar (n : ℕ) : Char := Char.ofNat (48 + n)

/-- Fuel-indexed decimal rendering of a natural number; the fuel is an
upper bound on the number of digits, supplied by `natDigits`. -/
def natDigitsAux : ℕ → ℕ → List Char
  | 0, _ => []
  | fuel + 1, n =>
      if n < 10 then [digitChar n]
      else natDigitsAux fuel (n / 10) ++ [digitChar (n % 10)]

/-- Decimal rendering of a natural number, as JavaScript
`Number.prototype.toString` renders a nonnegative integer. -/
def natDigits (n : ℕ) : List Char := natDigitsAux (n + 1) n

/-- Decimal rendering of an integer, as JavaScript
`Number.prototype.toString` renders an integer-valued number. -/
def intDigits (i : ℤ) : List Char :=
  if i < 0 then '-' :: natDigits i.natAbs else natDigits i.toNat

/-- JavaScript `String.prototype.padStart(k, "0")`. -/
def padStart (k : ℕ) (s : List Char) : List Char :=
  List.replicate (k - s.length) '0' ++ s

/-- JavaScript `String.prototype.slice(-2)`: the last two characters
(the whole string if it is shorter than two characters). -/
def sliceLast2 (s : List Char) : List Char := s.drop (s.length - 2)

/-- The observable calendar fields of a JavaScript `Date`, as returned
by `getFullYear()` (`fullYear`), `getMonth()` (`month0`, 0-based) and
`getDate()` (`date`, 1-based).  ECMA-262 guarantees `month0 ∈ [0, 11]`
and `date ∈ [1, 31]` for every valid `Date`. -/
structure JSDateFields where
  fullYear : ℤ
  month0 : ℕ
  date : ℕ
deriving DecidableEq

/-- `getPageNameForDate` (src/index.js lines 138-144):
`ap` + `getFullYear().toString().slice(-2)` +
`(getMonth()+1).toString().padStart(2,'0')` +
`getDate().toString().padStart(2,'0')` + `.html`. -/
def getPageNameForDate (d : JSDateFields) : List Char :=
  "ap".data
    ++ sliceLast2 (intDigits d.fullYear)
    ++ padStart 2 (natDigits (d.month0 + 1))
    ++ padStart 2 (natDigits d.date)
    ++ ".html".data

/-- The substring after the last occurrence of `c` (the whole string if
`c` does not occur). -/
def afterLast (c : Char) (s : List Char) : List Char :=
  (s.reverse.takeWhile (fun x => decide (x ≠ c))).reverse

/-- Model of Node's POSIX `path.extname`: the suffix of the basename
from its last dot, except that there is no extension when the basename
has no dot, when its only dot is its first character (dot-files), or
when the basename is exactly `..`. -/
def extname (p : List Char) : List Char :=
  let base := afterLast '/' p
  if base = ['.', '.'] then []
  else
    let tail := (base.reverse.takeWhile (fun x => decide (x ≠ '.'))).reverse
    if tail.length = base.length then []
    else if base.length = tail.length + 1 then []
    else '.' :: tail

/-- `isImagePath` (src/index.js lines 93-100): a truthy path whose
`extname` is contained in `['.jpg', '.gif', '.png']`.  JavaScript
truthiness of a possibly-`undefined` string: `none` and the empty
string are falsy. -/
def isImagePath (somePath : Option (List Char)) : Bool :=
  match somePath with
  | none => false
  | some s =>
      if s = [] then false
      else [".jpg".data, ".gif".data, ".png".data].contains (extname s)

/-- Modelled platform semantics: the civil calendar date `(y, m, d)`
(month `1..12`, day `1..31`) of a day count relative to 1970-01-01, the
proleptic-Gregorian conversion ECMA-262 prescribes for the `Date`
field getters (Howard Hinnant's `civil_from_days` algorithm). -/
def civilFromDays (z : ℤ) : ℤ × ℤ × ℤ :=
  let zs := z + 719468
  let era := Int.fdiv zs 146097
  let doe := zs - era * 146097
  let yoe := Int.fdiv
    (doe - Int.fdiv doe 1460 + Int.fdiv doe 36524 - Int.fdiv doe 146096) 365
  let y := yoe + era * 400
  let doy := doe - (365 * yoe + Int.fdiv yoe 4 - Int.fdiv yoe 100)
  let mp := Int.fdiv (5 * doy + 2) 153
  let d := doy - Int.fdiv (153 * mp + 2) 5 + 1
  let m := mp + (if mp < 10 then 3 else -9)
  (y + (if m ≤ 2 then 1 else 0), m, d)

/-- Modelled platform semantics: day count relative to 1970-01-01 of a
civil calendar date (Howard Hinnant's `days_from_civil`), the inverse
direction of the ECMA-262 `Date` calendar conversion. -/
def daysFromCivil (y m d : ℤ) : ℤ :=
  let y1 := y - (if m ≤ 2 then 1 else 0)
  let era := Int.fdiv y1 400
  let yoe := y1 - era * 400
  let doy := Int.fdiv (153 * (m + (if 2 < m then -3 else 9)) + 2) 5 + d - 1
  let doe := yoe * 365 + Int.fdiv yoe 4 - Int.fdiv yoe 100 + doy
  era * 146097 + doe - 719468

/-- Milliseconds per day. -/
def DAYMS : ℤ := 86400000

/-- The `Date` field triple `(getFullYear, getMonth, getDate)` of an
instant `ms` (epoch milliseconds) seen from a fixed-offset local time
zone `off` (local minus UTC, in milliseconds). -/
def jsDateFieldsOfMs (ms off : ℤ) : JSDateFields :=
  let c := civilFromDays (Int.fdiv (ms + off) DAYMS)
  ⟨c.1, (c.2.1 - 1).toNat, c.2.2.toNat⟩

/-- JavaScript `Math.round`: `⌊x + 1/2⌋`. -/
def jsRound (q : ℚ) : ℤ := ⌊q + 1 / 2⌋

/-- `min` of `getRandomApodDate` (src/index.js line 112):
`new Date(1995, 5, 16).getTime()`, local midnight of 1995-06-16 in a
fixed-offset time zone `off` (local minus UTC, milliseconds). -/
def apodMinTime (off : ℤ) : ℤ := daysFromCivil 1995 6 16 * DAYMS - off

/-- `max` of `getRandomApodDate` (src/index.js lines 113-118):
`new Date(getUTCFullYear(), getUTCMonth(), getUTCDate(), 18, 59, 59,
999).getTime()` minus five hours, for current instant `nowMs`. -/
def apodMaxTime (nowMs off : ℤ) : ℤ :=
  let c := civilFromDays (Int.fdiv nowMs DAYMS)
  daysFromCivil c.1 c.2.1 c.2.2 * DAYMS + 68399999 - off - 18000000

/-- `missingMin` (src/index.js line 126): `new Date(1995, 5, 17).getTime()`. -/
def apodMissingMin (off : ℤ) : ℤ := daysFromCivil 1995 6 17 * DAYMS - off

/-- `missingMax` (src/index.js line 127):
`new Date(1995, 5, 19, 23, 59, 59, 999).getTime()`. -/
def apodMissingMax (off : ℤ) : ℤ :=
  daysFromCivil 1995 6 19 * DAYMS + 86399999 - off

/-- One draw of `getRandomApodDate` (src/index.js lines 120 and 131):
`Math.round(min + r * (max - min))` for a `Math.random()` result `r`. -/
def drawInstant (lo hi : ℤ) (r : ℚ) : ℤ :=
  jsRound ((lo : ℚ) + r * ((hi : ℚ) - (lo : ℚ)))

/-- `getRandomApodDate` (src/index.js lines 102-136): draw an instant
uniformly in `[min, max]`, redraw while it lies in the missing-archive
window, return the first draw outside it.  `draws` is the sequence of
`Math.random()` results; `none` models exhausting the sequence without
leaving the missing window (the source would keep looping). -/
def getRandomApodDate (nowMs off : ℤ) : List ℚ → Option ℤ
  | [] => none
  | r :: rest =>
      let t := drawInstant (apodMinTime off) (apodMaxTime nowMs off) r
      if apodMissingMin off ≤ t ∧ t ≤ apodMissingMax off then
        getRandomApodDate nowMs off rest
      else some t

theorem drawInstant_mem (lo hi : ℤ) (r : ℚ) (h0 : 0 ≤ r) (h1 : r < 1)
    (hle : lo ≤ hi) : lo ≤ drawInstant lo hi r ∧ drawInstant lo hi r ≤ hi := by
  have hba : (0 : ℚ) ≤ (hi : ℚ) - (lo : ℚ) := by
    rw [sub_nonneg]
    exact_mod_cast hle
  have hq1 : (lo : ℚ) ≤ (lo : ℚ) + r * ((hi : ℚ) - (lo : ℚ)) :=
    le_add_of_nonneg_right (mul_nonneg h0 hba)
  have hq2 : (lo : ℚ) + r * ((hi : ℚ) - (lo : ℚ)) ≤ (hi : ℚ) := by nlinarith
  constructor
  · exact Int.le_floor.mpr (by linarith)
  · have hlt : drawInstant lo hi r < hi + 1 := by
      apply Int.floor_lt.mpr
      push_cast
      linarith
    omega

/-- C2: whenever `getRandomApodDate` returns an instant, that instant
lies in `[min, max]` and outside the missing-archive window, whatever
the sequence of `Math.random()` results. -/
theorem getRandomApodDate_in_range (nowMs off : ℤ) (draws : List ℚ) (t : ℤ)
    (hdraws : ∀ r ∈ draws, 0 ≤ r ∧ r < 1)
    (hrange : apodMinTime off ≤ apodMaxTime nowMs off)
    (hres : getRandomApodDate nowMs off draws = some t) :
    (apodMinTime off ≤ t ∧ t ≤ apodMaxTime nowMs off) ∧
      ¬(apodMissingMin off ≤ t ∧ t ≤ apodMissingMax off) := by
  induction draws with
  | nil => simp [getRandomApodDate] at hres
  | cons r rest ih =>
      simp only [getRandomApodDate] at hres
      by_cases hmiss :
          apodMissingMin off ≤ drawInstant (apodMinTime off) (apodMaxTime nowMs off) r ∧
            drawInstant (apodMinTime off) (apodMaxTime nowMs off) r ≤ apodMissingMax off
      · rw [if_pos hmiss] at hres
        exact ih (fun x hx => hdraws x (List.mem_cons_of_mem _ hx)) hres
      · rw [if_neg hmiss] at hres
        obtain ⟨hr0, hr1⟩ := hdraws r (List.mem_cons_self _ _)
        obtain rfl := Option.some.inj hres
        exact ⟨drawInstant_mem _ _ _ hr0 hr1 hrange, hmiss⟩

/-- Witness for C2 at `now` = 2025-01-01T00:00Z, UTC time zone, one
draw of `1/2`: the returned instant respects both bounds and avoids
the missing window. -/
theorem getRandomApodDate_in_range_witness :
    (apodMinTime 0 ≤ 1269500400000 ∧
        (1269500400000 : ℤ) ≤ apodMaxTime 1735689600000 0) ∧
      ¬(apodMissingMin 0 ≤ 1269500400000 ∧
        (1269500400000 : ℤ) ≤ apodMissingMax 0) := by
  have hmin : apodMinTime 0 = 803260800000 := by decide
  have hmax : apodMaxTime 1735689600000 0 = 1735739999999 := by decide
  have hdraw : drawInstant 803260800000 1735739999999 (1 / 2) = 1269500400000 := by
    unfold drawInstant jsRound
    norm_num
  apply getRandomApodDate_in_range 1735689600000 0 [1 / 2] 1269500400000
  · intro r hr
    simp only [List.mem_singleton] at hr
    subst hr
    norm_num
  · rw [hmin, hmax]
    decide
  · simp only [getRandomApodDate, hmin, hmax, hdraw]
    rw [if_neg]
    decide

theorem natDigitsAux_small (fuel n : ℕ) (hf : 0 < fuel) (hn : n < 10) :
    natDigitsAux fuel n = [digitChar n] := by
  cases fuel with
  | zero => omega
  | succ f => simp [natDigitsAux, hn]

theorem natDigits_two_digits (n : ℕ) (h10 : 10 ≤ n) (h100 : n < 100) :
    natDigits n = [digitChar (n / 10), digitChar (n % 10)] := by
  unfold natDigits natDigitsAux
  rw [if_neg (by omega)]
  rw [natDigitsAux_small n (n / 10) (by omega) (by omega)]
  rfl

theorem padStart_two_of_lt_100 (n : ℕ) (h : n < 100) :
    padStart 2 (natDigits n) = [digitChar (n / 10), digitChar (n % 10)] := by
  by_cases h10 : n < 10
  · have hd : natDigits n = [digitChar n] := by
      unfold natDigits natDigitsAux
      rw [if_pos h10]
    rw [hd]
    have h0 : n / 10 = 0 := Nat.div_eq_of_lt h10
    have hm : n % 10 = n := Nat.mod_eq_of_lt h10
    simp [padStart, h0, hm, digitChar]
  · rw [natDigits_two_digits n (by omega) h]
    simp [padStart]

theorem natDigitsAux_step (fuel n : ℕ) (hn : 10 ≤ n) :
    natDigitsAux (fuel + 1) n = natDigitsAux fuel (n / 10) ++ [digitChar (n % 10)] := by
  conv_lhs => rw [natDigitsAux]
  rw [if_neg (by omega)]

theorem natDigits_last_two (n : ℕ) (h : 100 ≤ n) :
    ∃ L, natDigits n = L ++ [digitChar (n / 10 % 10), digitChar (n % 10)] := by
  obtain ⟨f, rfl⟩ : ∃ f, n = f + 100 := ⟨n - 100, by omega⟩
  refine ⟨natDigitsAux (f + 99) ((f + 100) / 10 / 10), ?_⟩
  unfold natDigits
  rw [natDigitsAux_step (f + 100) (f + 100) (by omega)]
  rw [show f + 100 = f + 99 + 1 from rfl]
  rw [natDigitsAux_step (f + 99) ((f + 99 + 1) / 10) (by omega)]
  simp

theorem sliceLast2_append (L : List Char) (a b : Char) :
    sliceLast2 (L ++ [a, b]) = [a, b] := by
  unfold sliceLast2
  have hl : (L ++ [a, b]).length = L.length + 2 := by simp
  rw [hl]
  have : L.length + 2 - 2 = L.length := by omega
  rw [this]
  exact List.drop_left L [a, b]

theorem digitChar_isDigit (n : ℕ) (h : n < 10) : (digitChar n).isDigit = true := by
  interval_cases n <;> decide

/-- Decidable check that a string matches `ap\d\d\d\d\d\d\.html`. -/
def isApPageName (s : List Char) : Bool :=
  match s with
  | a :: p :: c1 :: c2 :: c3 :: c4 :: c5 :: c6 :: q :: w :: x :: y :: z :: [] =>
      decide (a = 'a') && decide (p = 'p') && c1.isDigit && c2.isDigit
        && c3.isDigit && c4.isDigit && c5.isDigit && c6.isDigit
        && decide (q = '.') && decide (w = 'h') && decide (x = 't')
        && decide (y = 'm') && decide (z = 'l')
  | _ => false

theorem getPageNameForDate_eq (d : JSDateFields) (hy1 : 1000 ≤ d.fullYear)
    (hy2 : d.fullYear ≤ 9999) (hm : d.month0 ≤ 11) (hd2 : d.date ≤ 31) :
    getPageNameForDate d =
      "ap".data ++
        [digitChar (d.fullYear.toNat / 10 % 10), digitChar (d.fullYear.toNat % 10),
          digitChar ((d.month0 + 1) / 10), digitChar ((d.month0 + 1) % 10),
          digitChar (d.date / 10), digitChar (d.date % 10)] ++ ".html".data := by
  have hy0 : ¬ d.fullYear < 0 := by omega
  unfold getPageNameForDate intDigits
  rw [if_neg hy0]
  obtain ⟨L, hL⟩ := natDigits_last_two d.fullYear.toNat (by omega)
  rw [hL, sliceLast2_append]
  rw [padStart_two_of_lt_100 (d.month0 + 1) (by omega)]
  rw [padStart_two_of_lt_100 d.date (by omega)]
  simp

/-- C3: on a valid calendar date with a four-digit year, the page name
is `ap` + last-two-digits-of-year + zero-padded month + zero-padded
day + `.html`, matching `ap\d\d\d\d\d\d\.html`. -/
theorem getPageNameForDate_pattern (d : JSDateFields) (hy1 : 1000 ≤ d.fullYear)
    (hy2 : d.fullYear ≤ 9999) (hm : d.month0 ≤ 11) (hd1 : 1 ≤ d.date)
    (hd2 : d.date ≤ 31) :
    getPageNameForDate d =
      "ap".data ++
        [digitChar (d.fullYear.toNat / 10 % 10), digitChar (d.fullYear.toNat % 10),
          digitChar ((d.month0 + 1) / 10), digitChar ((d.month0 + 1) % 10),
          digitChar (d.date / 10), digitChar (d.date % 10)] ++ ".html".data ∧
      isApPageName (getPageNameForDate d) = true := by
  have heq := getPageNameForDate_eq d hy1 hy2 hm hd2
  refine ⟨heq, ?_⟩
  rw [heq]
  have g1 := digitChar_isDigit (d.fullYear.toNat / 10 % 10) (Nat.mod_lt _ (by norm_num))
  have g2 := digitChar_isDigit (d.fullYear.toNat % 10) (Nat.mod_lt _ (by norm_num))
  have g3 := digitChar_isDigit ((d.month0 + 1) / 10) (by omega)
  have g4 := digitChar_isDigit ((d.month0 + 1) % 10) (Nat.mod_lt _ (by norm_num))
  have g5 := digitChar_isDigit (d.date / 10) (by omega)
  have g6 := digitChar_isDigit (d.date % 10) (Nat.mod_lt _ (by norm_num))
  simp [isApPageName, g1, g2, g3, g4, g5, g6]

/-- Witness for C3 at the calendar date 2025-01-05. -/
theorem getPageNameForDate_pattern_witness :
    getPageNameForDate ⟨2025, 0, 5⟩ =
      "ap".data ++
        [digitChar 2, digitChar 5, digitChar 0, digitChar 1,
          digitChar 0, digitChar 5] ++ ".html".data ∧
      isApPageName (getPageNameForDate ⟨2025, 0, 5⟩) = true :=
  getPageNameForDate_pattern ⟨2025, 0, 5⟩ (by decide) (by decide) (by decide)
    (by decide) (by decide)

/-- C4 counterexample: the page name of 1995-06-16 (a four-digit-year
date) has 13 characters, not 10. -/
theorem getPageNameForDate_length_not_ten :
    (getPageNameForDate ⟨1995, 5, 16⟩).length = 13 ∧
      (getPageNameForDate ⟨1995, 5, 16⟩).length ≠ 10 := by
  decide

/-- C4 (amended): every page name produced from a valid calendar date
with a four-digit year has exactly 13 characters. -/
theorem getPageNameForDate_length (d : JSDateFields) (hy1 : 1000 ≤ d.fullYear)
    (hy2 : d.fullYear ≤ 9999) (hm : d.month0 ≤ 11) (hd2 : d.date ≤ 31) :
    (getPageNameForDate d).length = 13 := by
  rw [getPageNameForDate_eq d hy1 hy2 hm hd2]
  rfl

/-- Witness for the amended C4 at the calendar date 1995-06-16. -/
theorem getPageNameForDate_length_witness :
    (getPageNameForDate ⟨1995, 5, 16⟩).length = 13 :=
  getPageNameForDate_length ⟨1995, 5, 16⟩ (by decide) (by decide) (by decide)
    (by decide)

/-- C5: `isImagePath` is true exactly on present paths whose `extname`
is one of `.jpg`, `.gif`, `.png`; in particular it is false on the
absent path, the empty string, a `.jpeg` path and an upper-case `.JPG`
path. -/
theorem isImagePath_spec :
    (∀ p : Option (List Char), isImagePath p = true ↔
      ∃ s, p = some s ∧
        [".jpg".data, ".gif".data, ".png".data].contains (extname s) = true) ∧
    isImagePath none = false ∧ isImagePath (some []) = false ∧
    isImagePath (some "photo.jpeg".data) = false ∧
    isImagePath (some "a.JPG".data) = false := by
  refine ⟨?_, by decide, by decide, by decide, by decide⟩
  intro p
  cases p with
  | none =>
      simp [isImagePath]
  | some s =>
      simp only [isImagePath]
      by_cases hs : s = []
      · subst hs
        rw [if_pos rfl]
        constructor
        · intro h
          exact absurd h (by decide)
        · rintro ⟨s', hs', hc⟩
          obtain rfl := Option.some.inj hs'
          exact absurd hc (by decide)
      · rw [if_neg hs]
        constructor
        · intro h
          exact ⟨s, rfl, h⟩
        · rintro ⟨s', hs', hc⟩
          obtain rfl := Option.some.inj hs'
          exact hc

/-- JavaScript leading whitespace accepted by `parseInt` (the common
subset: space, tab, newline, carriage return). -/
def isJsSpace (c : Char) : Bool :=
  decide (c = ' ') || decide (c = '\t') || decide (c = '\n') || decide (c = '\r')

/-- The value of a list of decimal digit characters. -/
def digitsToNat (ds : List Char) : ℕ :=
  ds.foldl (fun a c => 10 * a + (c.toNat - 48)) 0

/-- The longest leading run of decimal digits, or `none` if there is
none (`parseInt` then yields NaN). -/
def parseDecDigits (s : List Char) : Option ℕ :=
  let ds := s.takeWhile Char.isDigit
  if ds = [] then none else some (digitsToNat ds)

/-- Model of `Number.parseInt(s, 10)`: skip leading whitespace, accept
an optional sign, parse the longest leading run of decimal digits and
ignore everything after it; `none` models NaN. -/
def parseIntB10 (s : List Char) : Option ℤ :=
  match s.dropWhile isJsSpace with
  | '-' :: rest => (parseDecDigits rest).map (fun n => -(n : ℤ))
  | '+' :: rest => (parseDecDigits rest).map (fun n => (n : ℤ))
  | rest => (parseDecDigits rest).map (fun n => (n : ℤ))

/-- `Number.parseInt(mode, 10)` for a possibly-absent argument: the
absent argument coerces to the string `undefined`, which parses to
NaN. -/
def parseIntOfMode (mode : Option (List Char)) : Option ℤ :=
  match mode with
  | none => none
  | some s => parseIntB10 s

/-- The branch `main` (src/index.js lines 37-54) selects from its mode
argument. -/
inductive MainAction where
  | randomLoop
  | daysAgo (n : ℤ)
  | todayPage
deriving DecidableEq

/-- The mode dispatch of `main` (src/index.js lines 37-54): `random`/`r`,
then `yesterday`/`y` (one day ago), then any mode whose
`Number.parseInt(mode, 10)` is an integer (that many days ago), and
otherwise the fixed today page. -/
def mainDispatch (mode : Option (List Char)) : MainAction :=
  if mode = some "random".data ∨ mode = some "r".data then .randomLoop
  else if mode = some "yesterday".data ∨ mode = some "y".data then .daysAgo 1
  else
    match parseIntOfMode mode with
    | some n => .daysAgo n
    | none => .todayPage

/-- Stated from the claim's words: an "integer string" is an optional
sign followed by one or more decimal digits and nothing else. -/
def isIntegerString (mode : Option (List Char)) : Bool :=
  match mode with
  | none => false
  | some [] => false
  | some ('-' :: ds) => decide (ds ≠ []) && ds.all Char.isDigit
  | some ('+' :: ds) => decide (ds ≠ []) && ds.all Char.isDigit
  | some ds => ds.all Char.isDigit

/-- C6 counterexample: the mode `3.5` is none of the four named modes
and is not an integer string, yet the orchestrator dispatches to
"3 days ago" rather than to the fixed today page, because
`parseInt("3.5", 10)` is `3`. -/
theorem mainDispatch_three_point_five :
    isIntegerString (some "3.5".data) = false ∧
      some "3.5".data ≠ some "random".data ∧
      some "3.5".data ≠ some "r".data ∧
      some "3.5".data ≠ some "yesterday".data ∧
      some "3.5".data ≠ some "y".data ∧
      mainDispatch (some "3.5".data) = MainAction.daysAgo 3 ∧
      mainDispatch (some "3.5".data) ≠ MainAction.todayPage := by
  decide

/-- C6 (amended): for every mode argument that is none of `random`,
`r`, `yesterday`, `y` and for which `parseInt(mode, 10)` yields NaN
(no leading integer; this includes the absent argument and `today`),
the orchestrator uses the fixed today page name. -/
theorem mainDispatch_default (mode : Option (List Char))
    (h1 : mode ≠ some "random".data) (h2 : mode ≠ some "r".data)
    (h3 : mode ≠ some "yesterday".data) (h4 : mode ≠ some "y".data)
    (h5 : parseIntOfMode mode = none) :
    mainDispatch mode = MainAction.todayPage := by
  unfold mainDispatch
  rw [if_neg (by tauto), if_neg (by tauto), h5]

/-- Witness for the amended C6 at the unrecognized mode `today`. -/
theorem mainDispatch_default_witness :
    mainDispatch (some "today".data) = MainAction.todayPage :=
  mainDispatch_default (some "today".data) (by decide) (by decide) (by decide)
    (by decide) (by decide)

/-- The retry loop of `getRandomApodImagePathAndDate` (src/index.js
lines 65-74), driven by an oracle listing, per iteration, the random
date drawn (epoch ms) and the image path the fetch+extract step
produced for it.  The loop body runs once per iteration and repeats
while `isImagePath` rejects the extracted path; `none` models an
exhausted oracle (the source would keep looping). -/
def getRandomApodImagePathAndDate :
    List (ℤ × Option (List Char)) → Option (ℤ × Option (List Char))
  | [] => none
  | (d, p) :: rest =>
      if isImagePath p then some (d, p)
      else getRandomApodImagePathAndDate rest

/-- Stated from the claim's words: the first iteration whose extracted
result is not "none". -/
def firstNonNoneIteration (iters : List (ℤ × Option (List Char))) :
    Option (ℤ × Option (List Char)) :=
  iters.find? (fun it => it.2.isSome)

/-- C7 counterexample: an iteration extracting `lucy.html` — not
"none" — does not end the loop, because `isImagePath` rejects it; the
loop continues to the next iteration. -/
theorem getRandomApodImagePathAndDate_not_first_non_none :
    getRandomApodImagePathAndDate
        [(0, some "lucy.html".data), (1, some "img.jpg".data)] =
      some (1, some "img.jpg".data) ∧
    firstNonNoneIteration
        [(0, some "lucy.html".data), (1, some "img.jpg".data)] =
      some (0, some "lucy.html".data) ∧
    some "lucy.html".data ≠ (none : Option (List Char)) ∧
    getRandomApodImagePathAndDate
        [(0, some "lucy.html".data), (1, some "img.jpg".data)] ≠
      firstNonNoneIteration
        [(0, some "lucy.html".data), (1, some "img.jpg".data)] := by
  decide

/-- C7 (amended): the retry cycle repeats exactly while `isImagePath`
rejects the extracted result; the loop ends at — and returns — the
first iteration whose extracted result is a valid image path. -/
theorem getRandomApodImagePathAndDate_eq_find
    (iters : List (ℤ × Option (List Char))) :
    getRandomApodImagePathAndDate iters =
      iters.find? (fun it => isImagePath it.2) := by
  induction iters with
  | nil => rfl
  | cons it rest ih =>
      obtain ⟨d, p⟩ := it
      by_cases h : isImagePath p
      · simp [getRandomApodImagePathAndDate, List.find?, h]
      · simp [getRandomApodImagePathAndDate, List.find?, h, ih]

/-- The top-level `try/catch` (src/index.js lines 202-206): `main`
either completes normally or raises an error; the catch handler writes
the error to standard error (`console.error`) and neither rethrows nor
sets an exit code, so the Node process terminates normally — exit
status 0 — in both cases.  Result: (standard-error lines, exit
status). -/
def topLevelRun {ε : Type} (r : Except ε Unit) : List ε × ℕ :=
  match r with
  | Except.ok _ => ([], 0)
  | Except.error e => ([e], 0)

/-- C8 counterexample: a failing run exits with status 0 — a success
indication — not a non-zero one. -/
theorem topLevelRun_exit_zero :
    (topLevelRun (Except.error "FetchError".data)).2 = 0 ∧
      ¬ (topLevelRun (Except.error "FetchError".data)).2 ≠ 0 := by
  decide

/-- C8 (amended): any unhandled failure is reported to the standard
error stream, and the process then terminates normally with exit
status 0 (a success indication), because the top-level catch swallows
the error. -/
theorem topLevelRun_error_reported {ε : Type} (e : ε) :
    topLevelRun (Except.error e) = ([e], 0) := rfl

/-- An open-tag event of the streaming HTML parse: tag name and
attributes in source order (`onopentag(name, attribs)` of the
`htmlparser2` dependency). -/
structure Tag where
  tagName : List Char
  attribs : List (List Char × List Char)
deriving DecidableEq

/-- The apostrophe character. -/
def singleQuote : Char := Char.ofNat 39

/-- Modelled dependency semantics: entity decoding of attribute values
(`htmlparser2` option `decodeEntities: true`), for the five named
XML/HTML entities. -/
def decodeEntities : List Char → List Char
  | '&' :: 'a' :: 'm' :: 'p' :: ';' :: rest => '&' :: decodeEntities rest
  | '&' :: 'l' :: 't' :: ';' :: rest => '<' :: decodeEntities rest
  | '&' :: 'g' :: 't' :: ';' :: rest => '>' :: decodeEntities rest
  | '&' :: 'q' :: 'u' :: 'o' :: 't' :: ';' :: rest => '"' :: decodeEntities rest
  | '&' :: 'a' :: 'p' :: 'o' :: 's' :: ';' :: rest =>
      singleQuote :: decodeEntities rest
  | c :: rest => c :: decodeEntities rest
  | [] => []

/-- HTML whitespace inside a tag. -/
def isHtmlSpace (c : Char) : Bool :=
  decide (c = ' ') || decide (c = '\t') || decide (c = '\n') || decide (c = '\r')

/-- Append a finished attribute (name lower-cased on collection, value
entity-decoded); a later duplicate of a name never wins a lookup over
an earlier one, as in `htmlparser2`. -/
def addAttr (t : Tag) (nm vl : List Char) : Tag :=
  ⟨t.tagName, t.attribs ++ [(nm, decodeEntities vl)]⟩

/-- Tokenizer state, mirroring the state machine of the `htmlparser2`
tokenizer for the constructs that can precede an open-tag event: text,
tag names, attribute names/values (double-quoted, single-quoted,
unquoted), closing tags, comments and other `<!`/`<?` markup. -/
inductive TkState where
  | text
  | ltSeen
  | inTagName (nameRev : List Char)
  | beforeAttrName (t : Tag)
  | inAttrName (t : Tag) (nameRev : List Char)
  | afterAttrName (t : Tag) (nm : List Char)
  | beforeAttrValue (t : Tag) (nm : List Char)
  | attrValueDQ (t : Tag) (nm : List Char) (valRev : List Char)
  | attrValueSQ (t : Tag) (nm : List Char) (valRev : List Char)
  | attrValueNQ (t : Tag) (nm : List Char) (valRev : List Char)
  | closingTag
  | bang
  | bangDash
  | comment (dashes : ℕ)
  | bogus

/-- One character step of the tokenizer: next state and the open-tag
event emitted by this character, if any.  Tag and attribute names are
lower-cased (`htmlparser2` defaults `lowerCaseTags` and
`lowerCaseAttributeNames`); a self-closing `/` still emits the open
tag at `>`. -/
def tkStep : TkState → Char → TkState × Option Tag
  | .text, c => if c = '<' then (.ltSeen, none) else (.text, none)
  | .ltSeen, c =>
      if c.isAlpha then (.inTagName [c.toLower], none)
      else if c = '/' then (.closingTag, none)
      else if c = '!' then (.bang, none)
      else if c = '?' then (.bogus, none)
      else if c = '<' then (.ltSeen, none)
      else (.text, none)
  | .inTagName nr, c =>
      if c = '>' then (.text, some ⟨nr.reverse, []⟩)
      else if isHtmlSpace c then (.beforeAttrName ⟨nr.reverse, []⟩, none)
      else if c = '/' then (.beforeAttrName ⟨nr.reverse, []⟩, none)
      else (.inTagName (c.toLower :: nr), none)
  | .beforeAttrName t, c =>
      if c = '>' then (.text, some t)
      else if isHtmlSpace c || c = '/' then (.beforeAttrName t, none)
      else (.inAttrName t [c.toLower], none)
  | .inAttrName t nr, c =>
      if c = '=' then (.beforeAttrValue t nr.reverse, none)
      else if c = '>' then (.text, some (addAttr t nr.reverse []))
      else if isHtmlSpace c then (.afterAttrName t nr.reverse, none)
      else if c = '/' then (.beforeAttrName (addAttr t nr.reverse []), none)
      else (.inAttrName t (c.toLower :: nr), none)
  | .afterAttrName t nm, c =>
      if c = '=' then (.beforeAttrValue t nm, none)
      else if c = '>' then (.text, some (addAttr t nm []))
      else if isHtmlSpace c then (.afterAttrName t nm, none)
      else if c = '/' then (.beforeAttrName (addAttr t nm []), none)
      else (.inAttrName (addAttr t nm []) [c.toLower], none)
  | .beforeAttrValue t nm, c =>
      if c = '"' then (.attrValueDQ t nm [], none)
      else if c = singleQuote then (.attrValueSQ t nm [], none)
      else if isHtmlSpace c then (.beforeAttrValue t nm, none)
      else if c = '>' then (.text, some (addAttr t nm []))
      else (.attrValueNQ t nm [c], none)
  | .attrValueDQ t nm vr, c =>
      if c = '"' then (.beforeAttrName (addAttr t nm vr.reverse), none)
      else (.attrValueDQ t nm (c :: vr), none)
  | .attrValueSQ t nm vr, c =>
      if c = singleQuote then (.beforeAttrName (addAttr t nm vr.reverse), none)
      else (.attrValueSQ t nm (c :: vr), none)
  | .attrValueNQ t nm vr, c =>
      if c = '>' then (.text, some (addAttr t nm vr.reverse))
      else if isHtmlSpace c then (.beforeAttrName (addAttr t nm vr.reverse), none)
      else (.attrValueNQ t nm (c :: vr), none)
  | .closingTag, c => if c = '>' then (.text, none) else (.closingTag, none)
  | .bang, c =>
      if c = '-' then (.bangDash, none)
      else if c = '>' then (.text, none)
      else (.bogus, none)
  | .bangDash, c =>
      if c = '-' then (.comment 0, none)
      else if c = '>' then (.text, none)
      else (.bogus, none)
  | .comment n, c =>
      if c = '-' then (.comment (n + 1), none)
      else if c = '>' && decide (2 ≤ n) then (.text, none)
      else (.comment 0, none)
  | .bogus, c => if c = '>' then (.text, none) else (.bogus, none)

/-- Modelled dependency semantics: the document-order sequence of
open-tag events the `htmlparser2` streaming parse produces for a
markup string (`Parser.write` + `Parser.end`). -/
def tokenize (html : List Char) : List Tag :=
  (html.foldl
    (fun st c =>
      let step := tkStep st.1 c
      (step.1, match step.2 with
        | some t => t :: st.2
        | none => st.2))
    ((TkState.text : TkState), ([] : List Tag))).2.reverse

/-- Lookup of an attribute value in a JavaScript attributes object:
the first binding of the name, or `undefined`. -/
def attrLookup (nm : List Char) (ps : List (List Char × List Char)) :
    Option (List Char) :=
  (ps.find? (fun p => decide (p.1 = nm))).map Prod.snd

/-- The `onopentag` handler state of `findImagePath` (src/index.js
lines 150-159) folded over one event: count `<a>` tags; on the second
one, capture `attribs.href`. -/
def onOpenTagStep (st : ℕ × Option (List Char)) (t : Tag) :
    ℕ × Option (List Char) :=
  if t.tagName = ['a'] then
    if st.1 + 1 = 2 then (st.1 + 1, attrLookup "href".data t.attribs)
    else (st.1 + 1, st.2)
  else st

/-- `findImagePath` (src/index.js lines 146-169): stream the markup's
open-tag events through the counting handler and resolve, at end of
input, with the captured path (or `undefined`). -/
def findImagePath (html : List Char) : Option (List Char) :=
  ((tokenize html).foldl onOpenTagStep (0, none)).2

/-- The `href` of the second `<a>` event of an event stream, if the
stream has two or more `<a>` events; `none` otherwise. -/
def secondAnchorHref (ts : List Tag) : Option (List Char) :=
  match ts.filter (fun t => decide (t.tagName = ['a'])) with
  | _ :: t :: _ => attrLookup "href".data t.attribs
  | _ => none

theorem foldl_onOpenTagStep_ge_two (ts : List Tag) (n : ℕ)
    (acc : Option (List Char)) (h : 2 ≤ n) :
    (ts.foldl onOpenTagStep (n, acc)).2 = acc := by
  induction ts generalizing n with
  | nil => rfl
  | cons t rest ih =>
      simp only [List.foldl_cons]
      by_cases ha : t.tagName = ['a']
      · have hstep : onOpenTagStep (n, acc) t = (n + 1, acc) := by
          unfold onOpenTagStep
          rw [if_pos ha, if_neg (by omega)]
        rw [hstep]
        exact ih (n + 1) (by omega)
      · have hstep : onOpenTagStep (n, acc) t = (n, acc) := by
          unfold onOpenTagStep
          rw [if_neg ha]
        rw [hstep]
        exact ih n h

theorem foldl_onOpenTagStep_one (ts : List Tag) (acc : Option (List Char)) :
    (ts.foldl onOpenTagStep (1, acc)).2 =
      match ts.filter (fun t => decide (t.tagName = ['a'])) with
      | t :: _ => attrLookup "href".data t.attribs
      | [] => acc := by
  induction ts generalizing acc with
  | nil => rfl
  | cons t rest ih =>
      simp only [List.foldl_cons, List.filter_cons]
      by_cases ha : t.tagName = ['a']
      · have hstep : onOpenTagStep (1, acc) t =
            (2, attrLookup "href".data t.attribs) := by
          unfold onOpenTagStep
          rw [if_pos ha, if_pos rfl]
        rw [hstep, foldl_onOpenTagStep_ge_two rest 2 _ (le_refl 2)]
        simp [ha]
      · have hstep : onOpenTagStep (1, acc) t = (1, acc) := by
          unfold onOpenTagStep
          rw [if_neg ha]
        rw [hstep]
        simp only [ha]
        rw [ih acc]
        simp

theorem foldl_onOpenTagStep_zero (ts : List Tag) :
    (ts.foldl onOpenTagStep (0, none)).2 = secondAnchorHref ts := by
  unfold secondAnchorHref
  induction ts with
  | nil => rfl
  | cons t rest ih =>
      simp only [List.foldl_cons, List.filter_cons]
      by_cases ha : t.tagName = ['a']
      · have hstep : onOpenTagStep (0, none) t = (1, none) := by
          unfold onOpenTagStep
          rw [if_pos ha, if_neg (by omega)]
        rw [hstep, foldl_onOpenTagStep_one rest none]
        have hpa : decide (t.tagName = ['a']) = true := by simp [ha]
        rw [if_pos hpa]
        cases hf : rest.filter (fun t => decide (t.tagName = ['a'])) with
        | nil => rfl
        | cons t2 r2 => rfl
      · have hstep : onOpenTagStep (0, none) t = (0, none) := by
          unfold onOpenTagStep
          rw [if_neg ha]
        rw [hstep, ih]
        simp [ha]

/-- C1: for every markup input, `findImagePath` resolves to the `href`
of the second `<a>` open tag of the parse when the markup has at least
two `<a>` tags, and to "none" when it has fewer than two; entity
references in the attribute value are decoded (`&amp;` becomes `&`). -/
theorem findImagePath_second_anchor :
    (∀ html, findImagePath html = secondAnchorHref (tokenize html)) ∧
      (∀ html,
        ((tokenize html).filter (fun t => decide (t.tagName = ['a']))).length ≤ 1 →
          findImagePath html = none) ∧
      findImagePath
          "<a href=\"index.html\">first</a><a href=\"img&amp;1.jpg\">second</a>".data =
        some "img&1.jpg".data := by
  refine ⟨?_, ?_, by decide⟩
  · intro html
    exact foldl_onOpenTagStep_zero (tokenize html)
  · intro html hlen
    have h0 := foldl_onOpenTagStep_zero (tokenize html)
    unfold secondAnchorHref at h0
    show ((tokenize html).foldl onOpenTagStep (0, none)).2 = none
    rw [h0]
    cases hf : (tokenize html).filter (fun t => decide (t.tagName = ['a'])) with
    | nil => rfl
    | cons t1 r1 =>
        cases r1 with
        | nil => rfl
        | cons t2 r2 =>
            rw [hf] at hlen
            simp at hlen

/-- Witness for C1 on markup with a single anchor: the hypothesis of
its second conjunct holds and extraction resolves to "none". -/
theorem findImagePath_second_anchor_witness :
    findImagePath "<a href=\"only.html\">one</a>".data = none :=
  findImagePath_second_anchor.2.1 "<a href=\"only.html\">one</a>".data (by decide)

/-- Terminal outcome of `main` after extraction (src/index.js lines
56-62): a valid image path is saved and set as wallpaper; anything
else ends the run with the informational "No image found." message and
no download, storage or wallpaper step. -/
inductive ImageOutcome where
  | saveAndSetWallpaper (imagePath : List Char)
  | noImageFound
deriving DecidableEq

/-- The branch of `main` on the extracted path (src/index.js lines
56-62). -/
def mainImageStep (imagePath : Option (List Char)) : ImageOutcome :=
  if isImagePath imagePath then ImageOutcome.saveAndSetWallpaper (imagePath.getD [])
  else ImageOutcome.noImageFound

/-- C9: when the markup has two or more `<a>` tags but its second `<a>`
tag has no `href` attribute, extraction resolves to the absent value
(not an exception — the embedding is a total function), `isImagePath`
classifies it false, and the orchestrator reports "No image found."
with no download, storage or wallpaper step. -/
theorem second_anchor_without_href (html : List Char) (t1 t2 : Tag)
    (rest : List Tag)
    (hfilter : (tokenize html).filter (fun t => decide (t.tagName = ['a'])) =
      t1 :: t2 :: rest)
    (hhref : attrLookup "href".data t2.attribs = none) :
    findImagePath html = none ∧
      mainImageStep (findImagePath html) = ImageOutcome.noImageFound := by
  have h0 : findImagePath html = none := by
    show ((tokenize html).foldl onOpenTagStep (0, none)).2 = none
    rw [foldl_onOpenTagStep_zero]
    unfold secondAnchorHref
    rw [hfilter]
    exact hhref
  refine ⟨h0, ?_⟩
  rw [h0]
  rfl

/-- Witness for C9: markup whose second anchor carries no `href`. -/
theorem second_anchor_without_href_witness :
    findImagePath "<a href=\"x\">a</a><a>b</a>".data = none ∧
      mainImageStep (findImagePath "<a href=\"x\">a</a><a>b</a>".data) =
        ImageOutcome.noImageFound :=
  second_anchor_without_href "<a href=\"x\">a</a><a>b</a>".data
    ⟨"a".data, [("href".data, "x".data)]⟩ ⟨"a".data, []⟩ []
    (by decide) (by decide)

/-- `date.toISOString().slice(0, 10)`: the UTC calendar date of an
instant, rendered `YYYY-MM-DD` (four-digit-year range). -/
def isoDateChars (ms : ℤ) : List Char :=
  let c := civilFromDays (Int.fdiv ms DAYMS)
  padStart 4 (natDigits c.1.toNat) ++
    '-' :: (padStart 2 (natDigits c.2.1.toNat) ++
      '-' :: padStart 2 (natDigits c.2.2.toNat))

/-- The destination file name of `saveImage` (src/index.js lines
171-179): `join('download', 'apod-' + date.toISOString().slice(0, 10)
+ extname(imagePath))` — named by the UTC calendar date of the
instant, while `getPageNameForDate` uses its local calendar date. -/
def saveImageFileName (imagePath : List Char) (ms : ℤ) : List Char :=
  "download/apod-".data ++ isoDateChars ms ++ extname imagePath

/-- C10: at the instant 1970-01-01T00:00Z in the fixed-offset zone
UTC-1, the local calendar date (1969-12-31) that `getPageNameForDate`
encodes into the page name differs from the UTC calendar date
(1970-01-01) that `saveImage` encodes into the stored file's name. -/
theorem page_name_file_name_date_mismatch :
    getPageNameForDate (jsDateFieldsOfMs 0 (-3600000)) = "ap691231.html".data ∧
      saveImageFileName "img.jpg".data 0 = "download/apod-1970-01-01.jpg".data ∧
      civilFromDays (Int.fdiv (0 + -3600000) DAYMS) ≠
        civilFromDays (Int.fdiv 0 DAYMS) := by
  decide
